import Mathlib

/-!
Shallow embedding of the `npm-rs` crate (`src/lib.rs`): a builder (`Build`)
that stages a Node project from a project directory into a target directory,
runs `npm install`/`npm ci` once, and then runs named npm scripts.

Paths are modelled as a flag for absoluteness plus a list of components
(`PathBuf::join` replaces the receiver when the argument is absolute).
Filesystem and subprocess effects are modelled as an event trace; panics in
the Rust source become `Except.error` values that abort the trace at the
point where the panic fires.
-/

/-- Equality of `Except` values is decidable when both component types have
decidable equality. -/
instance {ε α : Type} [DecidableEq ε] [DecidableEq α] :
    DecidableEq (Except ε α) := fun a b =>
  match a, b with
  | Except.error e, Except.error f =>
      if h : e = f then Decidable.isTrue (by rw [h])
      else Decidable.isFalse (by simp [h])
  | Except.error _, Except.ok _ => Decidable.isFalse (by simp)
  | Except.ok _, Except.error _ => Decidable.isFalse (by simp)
  | Except.ok x, Except.ok y =>
      if h : x = y then Decidable.isTrue (by rw [h])
      else Decidable.isFalse (by simp [h])

namespace NpmRs

/-- Model of `std::path::PathBuf`: an absoluteness flag and the list of
path components. -/
structure Path where
  absolute : Bool
  components : List String
deriving DecidableEq, Repr

/-- `PathBuf::join`: joining an absolute path replaces the receiver. -/
def Path.join (p q : Path) : Path :=
  if q.absolute then q else ⟨p.absolute, p.components ++ q.components⟩

/-- `f.isUnder p` holds when the file `f` lies at or below the path `p`. -/
def Path.isUnder (f p : Path) : Bool :=
  f.absolute == p.absolute && p.components.isPrefixOf f.components

/-- The `CopyItems` enum of the source. -/
inductive CopyItems where
  | Nothing : CopyItems
  | All : CopyItems
  | Some : List Path → CopyItems
deriving DecidableEq, Repr

/-- The `NodeEnv` enum of the source. -/
inductive NodeEnv where
  | Production : NodeEnv
  | Development : NodeEnv
  | Custom : String → NodeEnv
deriving DecidableEq, Repr

/-- `NodeEnv::to_env_var`. -/
def NodeEnv.to_env_var : NodeEnv → String
  | .Production => "production"
  | .Development => "development"
  | .Custom s => s

/-- The free function `node_env()`: resolves the default environment mode
from the ambient `NODE_ENV` variable (`none` models an unset variable) and
the build profile (`release = true` models `!cfg!(debug_assertions)`). -/
def node_env (var : Option String) (release : Bool) : NodeEnv :=
  match var with
  | some s =>
      if s = "production" then NodeEnv.Production
      else if s = "development" then NodeEnv.Development
      else NodeEnv.Custom s
  | none => if release then NodeEnv.Production else NodeEnv.Development

/-- The `Build` struct of the source. -/
structure Build where
  project_directory : Path
  copy : CopyItems
  target_directory : Path
  installed : Bool
  node_env : NodeEnv
deriving DecidableEq, Repr

/-- `Build::new()`: blank configuration; both directories default to `""`
(the current directory, a relative empty path), no copy policy, not
installed, environment mode resolved by `node_env()`. -/
def Build.new (var : Option String) (release : Bool) : Build :=
  { project_directory := ⟨false, []⟩
    copy := CopyItems.Nothing
    target_directory := ⟨false, []⟩
    installed := false
    node_env := NpmRs.node_env var release }

/-- `Build::node_env`: explicit environment-mode setter. -/
def Build.set_node_env (b : Build) (value : String) : Build :=
  { b with node_env :=
      if value = "production" then NodeEnv.Production
      else if value = "development" then NodeEnv.Development
      else NodeEnv.Custom value }

/-- `Build::target_directory`: sets the target directory and resets
`installed` to `false`. -/
def Build.set_target_directory (b : Build) (directory : Path) : Build :=
  { b with target_directory := directory, installed := false }

/-- `Build::project_directory`: sets the project directory and resets
`installed` to `false`. -/
def Build.set_project_directory (b : Build) (directory : Path) : Build :=
  { b with project_directory := directory, installed := false }

/-- `Build::copy_items`: sets the copy policy to an explicit item list. -/
def Build.copy_items (b : Build) (items : List Path) : Build :=
  { b with copy := CopyItems.Some items }

/-- `Build::copy_all`: sets the copy policy to copy everything. -/
def Build.copy_all (b : Build) : Build :=
  { b with copy := CopyItems.All }

/-- The panics and process-aborting failures of the source, as error values. -/
inductive NpmError where
  | npmNotFound : NpmError
  | createDirFailed : NpmError
  | noCopyPolicy : NpmError
  | absoluteItem : NpmError
  | installFailed : NpmError
  | runFailed : NpmError
deriving DecidableEq, Repr

/-- A single filesystem mutation performed during staging: one entry of the
`remove_items` batch, or one entry of the `copy_items` batch (`fs_extra`
copies the source entry into the destination directory under the source's
final component name). -/
inductive FsOp where
  | removeItem : Path → FsOp
  | copyItem : Path → Path → FsOp
deriving DecidableEq, Repr

/-- An observable external effect of `run_script`. -/
inductive Event where
  | createDir : Path → Event
  | fs : FsOp → Event
  | npmInstall : String → String → Path → Event
  | npmRun : String → String → Path → Event
deriving DecidableEq, Repr

/-- `get_folder_contents`: the immediate children of the project directory,
excluding the entry named exactly `node_modules`; `entries` is the directory
listing that `read_dir` returns. -/
def get_folder_contents (entries : List String) : List Path :=
  (entries.filter (fun n => n ≠ "node_modules")).map (fun n => ⟨false, [n]⟩)

/-- The item-list resolution step of `copy_to_target` (the `match` on the
`CopyItems` configuration). -/
def resolveItems (config : CopyItems) (entries : List String) :
    Except NpmError (List Path) :=
  match config with
  | CopyItems.Nothing => Except.error NpmError.noCopyPolicy
  | CopyItems.All => Except.ok (get_folder_contents entries)
  | CopyItems.Some items => Except.ok items

/-- The filesystem operations staged for a validated item list: one
`remove_items` batch of `to.join(p)` for every item, then one `copy_items`
batch copying `from.join(p)` into `to`. -/
def stagingOps (item_list : List Path) (fromDir toDir : Path) : List FsOp :=
  item_list.map (fun p => FsOp.removeItem (toDir.join p)) ++
  item_list.map (fun p => FsOp.copyItem (fromDir.join p) toDir)

/-- `copy_to_target`: resolve the item list from the copy policy, panic if
any resolved item is absolute (before any filesystem mutation), otherwise
perform the remove batch followed by the copy batch. -/
def copy_to_target (config : CopyItems) (entries : List String)
    (fromDir toDir : Path) : Except NpmError (List FsOp) :=
  match resolveItems config entries with
  | Except.error e => Except.error e
  | Except.ok item_list =>
      if item_list.any (fun p => p.absolute) then
        Except.error NpmError.absoluteItem
      else
        Except.ok (stagingOps item_list fromDir toDir)

/-- The ambient world a `run_script` call runs in: whether `which("npm")`
succeeds, whether `create_dir_all` succeeds, the directory listing of the
project directory, and the exit statuses of the two npm subprocesses. -/
structure World where
  npmFound : Bool
  createDirOk : Bool
  projEntries : List String
  installExitOk : Bool
  runExitOk : Bool
deriving DecidableEq, Repr

/-- The staging step inside `run_script`: staging runs only when the project
and target directories differ. -/
def stagingOf (b : Build) (w : World) : Except NpmError (List FsOp) :=
  if b.project_directory ≠ b.target_directory then
    copy_to_target b.copy w.projEntries b.project_directory b.target_directory
  else
    Except.ok []

/-- `Build::run_script`: locate npm; if not `installed`, create the target
directory, stage (when the directories differ), and run `npm ci`/`npm
install`; then run `npm run <script>`. Returns the event trace that executed
before returning or panicking, and the resulting builder state (the source
never sets `installed` to `true`). -/
def Build.run_script (b : Build) (release : Bool) (w : World)
    (script : String) : List Event × Except NpmError Build :=
  if w.npmFound then
    let env := b.node_env.to_env_var
    if b.installed then
      let ev := [Event.npmRun script env b.target_directory]
      (ev, if w.runExitOk then Except.ok b else Except.error NpmError.runFailed)
    else
      let ev0 := [Event.createDir b.target_directory]
      if w.createDirOk then
        match stagingOf b w with
        | Except.error e => (ev0, Except.error e)
        | Except.ok ops =>
            let cmd := if release then "ci" else "install"
            let ev2 := ev0 ++ ops.map Event.fs ++
              [Event.npmInstall cmd env b.target_directory]
            if w.installExitOk then
              let ev3 := ev2 ++ [Event.npmRun script env b.target_directory]
              (ev3,
               if w.runExitOk then Except.ok b
               else Except.error NpmError.runFailed)
            else
              (ev2, Except.error NpmError.installFailed)
      else
        (ev0, Except.error NpmError.createDirFailed)
  else
    ([], Except.error NpmError.npmNotFound)

/-- Whether an event is a staging filesystem mutation (a remove or a copy). -/
def isFsEvent : Event → Bool
  | Event.fs _ => true
  | _ => false

/-- The number of `npm install`/`npm ci` invocations in a trace. -/
def countInstalls (evs : List Event) : Nat :=
  (evs.filter (fun e => match e with
    | Event.npmInstall _ _ _ => true
    | _ => false)).length

/-- The number of `npm run` invocations in a trace. -/
def countRuns (evs : List Event) : Nat :=
  (evs.filter (fun e => match e with
    | Event.npmRun _ _ _ => true
    | _ => false)).length

/-- Where a file `f` lying at or below a copied entry `s` lands when `s` is
copied into the directory `dstDir`: under `dstDir`, under the final
component name of `s`, keeping the remainder of `f`'s path below `s`
(`fs_extra` copy semantics). -/
def rebase (dstDir s f : Path) : Path :=
  ⟨dstDir.absolute,
   dstDir.components ++ s.components.getLastD "" ::
     f.components.drop s.components.length⟩

/-- Semantics of one staged filesystem operation on a file set: a remove
deletes every file at or below the removed path; a copy re-roots every
source file at or below the copied entry into the destination directory
under the entry's final component name (`fs_extra` copy semantics). -/
def applyOp (srcFs : List Path) (fs : List Path) : FsOp → List Path
  | FsOp.removeItem p => fs.filter (fun f => !(f.isUnder p))
  | FsOp.copyItem s dstDir =>
      fs ++ (srcFs.filter (fun f => f.isUnder s)).map (rebase dstDir s)

/-- Run a list of staged operations over a file set; `srcFs` is the (fixed)
content of the project directory's filesystem, `fs` the target's. -/
def runOps (srcFs fs : List Path) (ops : List FsOp) : List Path :=
  ops.foldl (applyOp srcFs) fs

/-- A freshly constructed builder: debug profile, `NODE_ENV` unset. -/
def freshBuild : Build := Build.new none false

/-- A world where npm is found, the target directory can be created, the
project directory is empty, and both npm subprocesses exit successfully. -/
def allOkWorld : World := ⟨true, true, [], true, true⟩

/-- The combined event trace of two sequential `run_script` calls on the
fresh builder with no directory mutation in between (the second call runs
on the builder state the first call returns). -/
def twoRunsTrace : List Event :=
  let r1 := freshBuild.run_script false allOkWorld "build"
  match r1.2 with
  | Except.ok b1 => r1.1 ++ (b1.run_script false allOkWorld "build").1
  | Except.error _ => r1.1

/-- C7: with no explicit environment-mode call, the default mode maps
`NODE_ENV = "production"` to `Production`, `"development"` to `Development`,
any other non-empty value to `Custom` of that verbatim string, and an unset
variable to `Production` in a release build and `Development` otherwise. -/
theorem node_env_default_resolution (v : String) (release : Bool) :
    node_env (some "production") release = NodeEnv.Production ∧
    node_env (some "development") release = NodeEnv.Development ∧
    (v ≠ "production" → v ≠ "development" → v ≠ "" →
      node_env (some v) release = NodeEnv.Custom v) ∧
    node_env none true = NodeEnv.Production ∧
    node_env none false = NodeEnv.Development := by
  refine ⟨rfl, by simp [node_env], fun h1 h2 _ => by simp [node_env, h1, h2],
    rfl, rfl⟩

/-- Witness for C7 at the non-empty custom value `"staging"`. -/
theorem node_env_default_resolution_witness :
    node_env (some "staging") true = NodeEnv.Custom "staging" :=
  (node_env_default_resolution "staging" true).2.2.1 (by decide) (by decide)
    (by decide)

/-- C10: `copy_all` and `copy_items` mutate only the copy-policy field;
the directories, the `installed` flag and the environment mode of any prior
builder state are unchanged. -/
theorem copy_policy_setters_frame (b : Build) (items : List Path) :
    ((b.copy_all).project_directory = b.project_directory ∧
     (b.copy_all).target_directory = b.target_directory ∧
     (b.copy_all).installed = b.installed ∧
     (b.copy_all).node_env = b.node_env ∧
     (b.copy_all).copy = CopyItems.All) ∧
    ((b.copy_items items).project_directory = b.project_directory ∧
     (b.copy_items items).target_directory = b.target_directory ∧
     (b.copy_items items).installed = b.installed ∧
     (b.copy_items items).node_env = b.node_env ∧
     (b.copy_items items).copy = CopyItems.Some items) :=
  ⟨⟨rfl, rfl, rfl, rfl, rfl⟩, ⟨rfl, rfl, rfl, rfl, rfl⟩⟩

/-- C1 (failing run): on a fresh builder with every external step
succeeding, `run_script` returns the builder unchanged — in particular with
`installed` still `false`, because the source never sets it to `true` — so
two sequential calls with no directory mutation in between invoke the npm
install subcommand twice, not at most once as claimed (the run subcommand
is invoked twice as claimed). -/
theorem install_invoked_twice :
    (freshBuild.run_script false allOkWorld "build").2 =
      Except.ok freshBuild ∧
    freshBuild.installed = false ∧
    countInstalls twoRunsTrace = 2 ∧
    countRuns twoRunsTrace = 2 := by decide

/-- C3: when the project and target directories are equal, `run_script`
performs no staging remove/copy operation regardless of the copy policy and
never fails with a configuration error (missing policy or absolute item). -/
theorem same_dir_staging_noop (b : Build) (release : Bool) (w : World)
    (script : String) (hdir : b.project_directory = b.target_directory) :
    (b.run_script release w script).1.filter isFsEvent = [] ∧
    (b.run_script release w script).2 ≠ Except.error NpmError.noCopyPolicy ∧
    (b.run_script release w script).2 ≠ Except.error NpmError.absoluteItem := by
  obtain ⟨pd, cp, td, inst, ne⟩ := b
  obtain ⟨nf, cd, pe, ie, re⟩ := w
  simp only at hdir
  subst hdir
  cases nf <;> cases inst <;> cases cd <;> cases ie <;> cases re <;>
    simp [Build.run_script, stagingOf, isFsEvent]

/-- Witness for C3: a fresh builder (equal directories, copy policy still
`Nothing`) raises no configuration error and performs no staging. -/
theorem same_dir_staging_noop_witness :
    ((Build.new none false).run_script false allOkWorld "x").1.filter
        isFsEvent = [] ∧
    ((Build.new none false).run_script false allOkWorld "x").2 ≠
      Except.error NpmError.noCopyPolicy ∧
    ((Build.new none false).run_script false allOkWorld "x").2 ≠
      Except.error NpmError.absoluteItem :=
  same_dir_staging_noop (Build.new none false) false allOkWorld "x" rfl

/-- C8: when the directories differ and the copy policy was never configured
(`Nothing`), `run_script` fails with the missing-policy configuration error
and performs no staging operation. -/
theorem missing_policy_fatal (b : Build) (release : Bool) (w : World)
    (script : String)
    (hnpm : w.npmFound = true) (hcd : w.createDirOk = true)
    (hinst : b.installed = false)
    (hcopy : b.copy = CopyItems.Nothing)
    (hdir : b.project_directory ≠ b.target_directory) :
    (b.run_script release w script).2 = Except.error NpmError.noCopyPolicy ∧
    (b.run_script release w script).1.filter isFsEvent = [] := by
  obtain ⟨pd, cp, td, inst, ne⟩ := b
  obtain ⟨nf, cd, pe, ie, re⟩ := w
  simp only at hnpm hcd hinst hcopy hdir
  subst hnpm hcd hinst hcopy
  simp [Build.run_script, stagingOf, hdir, copy_to_target, resolveItems,
    isFsEvent]

/-- Witness for C8: fresh builder with only a distinct target directory
set; `run_script` fails with the missing-policy error without staging. -/
theorem missing_policy_fatal_witness :
    (((Build.new none false).set_target_directory
        ⟨false, ["tgt"]⟩).run_script false allOkWorld "build").2 =
      Except.error NpmError.noCopyPolicy ∧
    (((Build.new none false).set_target_directory
        ⟨false, ["tgt"]⟩).run_script false allOkWorld "build").1.filter
      isFsEvent = [] :=
  missing_policy_fatal ((Build.new none false).set_target_directory
    ⟨false, ["tgt"]⟩) false allOkWorld "build" rfl rfl rfl rfl (by decide)

/-- C2: with an explicit item list containing at least one absolute path
and differing directories, `run_script` fails with the absolute-path
configuration error and no remove or copy operation executes — the valid
relative items are not staged either. -/
theorem absolute_item_aborts_staging (b : Build) (release : Bool) (w : World)
    (script : String) (items : List Path)
    (hcopy : b.copy = CopyItems.Some items)
    (habs : items.any (fun p => p.absolute) = true)
    (hdir : b.project_directory ≠ b.target_directory)
    (hinst : b.installed = false)
    (hnpm : w.npmFound = true) (hcd : w.createDirOk = true) :
    (b.run_script release w script).2 = Except.error NpmError.absoluteItem ∧
    (b.run_script release w script).1.filter isFsEvent = [] := by
  obtain ⟨pd, cp, td, inst, ne⟩ := b
  obtain ⟨nf, cd, pe, ie, re⟩ := w
  simp only at hnpm hcd hinst hcopy hdir
  subst hnpm hcd hinst hcopy
  simp [Build.run_script, stagingOf, hdir, copy_to_target, resolveItems,
    habs, isFsEvent]

/-- Witness for C2: one valid relative item plus one absolute item; the
call aborts with the absolute-path error and stages nothing. -/
theorem absolute_item_aborts_staging_witness :
    ((((Build.new none false).set_target_directory
        ⟨false, ["tgt"]⟩).copy_items
        [⟨false, ["ok.txt"]⟩, ⟨true, ["etc"]⟩]).run_script false allOkWorld
        "build").2 = Except.error NpmError.absoluteItem ∧
    ((((Build.new none false).set_target_directory
        ⟨false, ["tgt"]⟩).copy_items
        [⟨false, ["ok.txt"]⟩, ⟨true, ["etc"]⟩]).run_script false allOkWorld
        "build").1.filter isFsEvent = [] :=
  absolute_item_aborts_staging (((Build.new none false).set_target_directory
    ⟨false, ["tgt"]⟩).copy_items [⟨false, ["ok.txt"]⟩, ⟨true, ["etc"]⟩])
    false allOkWorld "build" [⟨false, ["ok.txt"]⟩, ⟨true, ["etc"]⟩]
    rfl (by decide) (by decide) rfl rfl rfl

/-- C9: with an explicit copy policy but equal project and target
directories, `run_script` skips staging and its validation entirely: even
an item list containing absolute paths raises no error and the call
succeeds with no staging operation. -/
theorem explicit_same_dir_skips_validation (b : Build) (release : Bool)
    (w : World) (script : String) (items : List Path)
    (hcopy : b.copy = CopyItems.Some items)
    (hdir : b.project_directory = b.target_directory)
    (hinst : b.installed = false)
    (hnpm : w.npmFound = true) (hcd : w.createDirOk = true)
    (hin : w.installExitOk = true) (hrun : w.runExitOk = true) :
    (b.run_script release w script).2 = Except.ok b ∧
    (b.run_script release w script).1.filter isFsEvent = [] := by
  obtain ⟨pd, cp, td, inst, ne⟩ := b
  obtain ⟨nf, cd, pe, ie, re⟩ := w
  simp only at hnpm hcd hinst hcopy hdir hin hrun
  subst hnpm hcd hinst hcopy hdir hin hrun
  simp [Build.run_script, stagingOf, isFsEvent]

/-- Witness for C9: an explicit list holding an absolute path with both
directories left at their common default; the call succeeds and raises no
error. -/
theorem explicit_same_dir_skips_validation_witness :
    (((Build.new none false).copy_items
        [⟨true, ["etc", "passwd"]⟩]).run_script false allOkWorld "build").2 =
      Except.ok ((Build.new none false).copy_items
        [⟨true, ["etc", "passwd"]⟩]) ∧
    (((Build.new none false).copy_items
        [⟨true, ["etc", "passwd"]⟩]).run_script false allOkWorld
        "build").1.filter isFsEvent = [] :=
  explicit_same_dir_skips_validation ((Build.new none false).copy_items
    [⟨true, ["etc", "passwd"]⟩]) false allOkWorld "build"
    [⟨true, ["etc", "passwd"]⟩] rfl rfl rfl rfl rfl rfl rfl

theorem countInstalls_nil : countInstalls [] = 0 := rfl

theorem countInstalls_append (a b : List Event) :
    countInstalls (a ++ b) = countInstalls a + countInstalls b := by
  simp [countInstalls, List.filter_append]

theorem countInstalls_cons_fs (o : FsOp) (t : List Event) :
    countInstalls (Event.fs o :: t) = countInstalls t := by
  simp [countInstalls, List.filter_cons]

theorem countInstalls_fs_map (ops : List FsOp) :
    countInstalls (ops.map Event.fs) = 0 := by
  induction ops with
  | nil => rfl
  | cons o t ih => simp only [List.map_cons, countInstalls_cons_fs, ih]

theorem countInstalls_cons_createDir (p : Path) (t : List Event) :
    countInstalls (Event.createDir p :: t) = countInstalls t := by
  simp [countInstalls, List.filter_cons]

theorem countInstalls_cons_install (c e : String) (p : Path)
    (t : List Event) :
    countInstalls (Event.npmInstall c e p :: t) = countInstalls t + 1 := by
  simp [countInstalls, List.filter_cons]

theorem countInstalls_cons_run (s e : String) (p : Path) (t : List Event) :
    countInstalls (Event.npmRun s e p :: t) = countInstalls t := by
  simp [countInstalls, List.filter_cons]

theorem runOps_cons (srcFs t : List Path) (op : FsOp) (ops : List FsOp) :
    runOps srcFs t (op :: ops) = runOps srcFs (applyOp srcFs t op) ops := rfl

theorem runOps_append (srcFs t : List Path) (xs ys : List FsOp) :
    runOps srcFs t (xs ++ ys) = runOps srcFs (runOps srcFs t xs) ys := by
  simp [runOps, List.foldl_append]

theorem isUnder_iff (f p : Path) :
    f.isUnder p = true ↔ f.absolute = p.absolute ∧
      p.components <+: f.components := by
  simp [Path.isUnder, List.isPrefixOf_iff_prefix, Bool.and_eq_true]

theorem join_relative (p : Path) (c : List String) :
    p.join ⟨false, c⟩ = ⟨p.absolute, p.components ++ c⟩ := rfl

theorem mem_runOps_removes (srcFs t : List Path) (rs : List Path)
    (f : Path) :
    f ∈ runOps srcFs t (rs.map FsOp.removeItem) ↔
      f ∈ t ∧ ∀ p ∈ rs, f.isUnder p = false := by
  induction rs generalizing t with
  | nil => simp [runOps]
  | cons q qs ih =>
      rw [List.map_cons, runOps_cons, ih]
      simp only [applyOp, List.mem_filter, Bool.not_eq_true',
        List.forall_mem_cons]
      tauto

theorem mem_runOps_copies (srcFs t : List Path) (cs : List Path)
    (dstDir : Path) (f : Path) :
    f ∈ runOps srcFs t (cs.map (fun c => FsOp.copyItem c dstDir)) ↔
      f ∈ t ∨ ∃ c ∈ cs, ∃ g ∈ srcFs, g.isUnder c = true ∧
        f = rebase dstDir c g := by
  induction cs generalizing t with
  | nil => simp [runOps]
  | cons q qs ih =>
      rw [List.map_cons, runOps_cons, ih]
      simp only [applyOp, List.mem_append, List.mem_map, List.mem_filter,
        List.exists_mem_cons_iff]
      constructor
      · rintro (((hf | ⟨g, ⟨hg, hgu⟩, hr⟩) | h) )
        · exact Or.inl hf
        · exact Or.inr (Or.inl ⟨g, hg, hgu, hr.symm⟩)
        · exact Or.inr (Or.inr h)
      · rintro (hf | ⟨g, hg, hgu, hr⟩ | h)
        · exact Or.inl (Or.inl hf)
        · exact Or.inl (Or.inr ⟨g, ⟨hg, hgu⟩, hr.symm⟩)
        · exact Or.inr h

/-- Membership in the target file set after running a full staging batch:
a file survives iff it was present and lies under none of the removed item
paths, or it is the rebased image of a source file lying under one of the
copied item paths. -/
theorem mem_runOps_stagingOps (srcFs t : List Path) (items : List Path)
    (fromDir toDir : Path) (f : Path) :
    f ∈ runOps srcFs t (stagingOps items fromDir toDir) ↔
      (f ∈ t ∧ ∀ p ∈ items, f.isUnder (toDir.join p) = false) ∨
      ∃ p ∈ items, ∃ g ∈ srcFs, g.isUnder (fromDir.join p) = true ∧
        f = rebase toDir (fromDir.join p) g := by
  have h1 : items.map (fun p => FsOp.removeItem (toDir.join p)) =
      (items.map (toDir.join ·)).map FsOp.removeItem := by
    simp [List.map_map]
  have h2 : items.map (fun p => FsOp.copyItem (fromDir.join p) toDir) =
      (items.map (fromDir.join ·)).map (fun c => FsOp.copyItem c toDir) := by
    simp [List.map_map]
  rw [stagingOps, runOps_append, h1, h2, mem_runOps_copies,
    mem_runOps_removes]
  simp only [List.mem_map]
  constructor
  · rintro (⟨hf, hall⟩ | ⟨c, ⟨p, hp, hc⟩, g, hg, hgu, hr⟩)
    · exact Or.inl ⟨hf, fun p hp => hall _ ⟨p, hp, rfl⟩⟩
    · exact Or.inr ⟨p, hp, g, hg, by rw [hc]; exact hgu, by rw [hc]; exact hr⟩
  · rintro (⟨hf, hall⟩ | ⟨p, hp, g, hg, hgu, hr⟩)
    · exact Or.inl ⟨hf, fun c ⟨p, hp, hc⟩ => by rw [← hc]; exact hall p hp⟩
    · exact Or.inr ⟨fromDir.join p, ⟨p, hp, rfl⟩, g, hg, hgu, hr⟩

/-- C6: setting the project or the target directory resets the `installed`
flag to `false`, and a subsequent `run_script` call (whose staging step
succeeds) invokes the npm install subcommand again. -/
theorem directory_change_resets_install (b : Build) (p : Path)
    (release : Bool) (w : World) (script : String) (ops1 ops2 : List FsOp)
    (hnpm : w.npmFound = true) (hcd : w.createDirOk = true)
    (hstage1 : stagingOf (b.set_project_directory p) w = Except.ok ops1)
    (hstage2 : stagingOf (b.set_target_directory p) w = Except.ok ops2) :
    (b.set_project_directory p).installed = false ∧
    (b.set_target_directory p).installed = false ∧
    countInstalls
      ((b.set_project_directory p).run_script release w script).1 = 1 ∧
    countInstalls
      ((b.set_target_directory p).run_script release w script).1 = 1 := by
  obtain ⟨nf, cd, pe, ie, re⟩ := w
  simp only at hnpm hcd
  subst hnpm hcd
  simp only [Build.set_project_directory, Build.set_target_directory]
    at hstage1 hstage2
  refine ⟨rfl, rfl, ?_, ?_⟩ <;>
    cases ie <;> cases re <;>
      simp [Build.run_script, Build.set_project_directory,
        Build.set_target_directory, hstage1, hstage2, countInstalls_append,
        countInstalls_fs_map, countInstalls_cons_createDir,
        countInstalls_cons_install, countInstalls_cons_run, countInstalls_nil]

/-- Witness for C6: a copy-all builder over an empty project listing; after
each directory change the next `run_script` call installs again. -/
theorem directory_change_resets_install_witness :
    (((Build.new none false).copy_all).set_project_directory
        ⟨false, ["p2"]⟩).installed = false ∧
    (((Build.new none false).copy_all).set_target_directory
        ⟨false, ["p2"]⟩).installed = false ∧
    countInstalls ((((Build.new none false).copy_all).set_project_directory
        ⟨false, ["p2"]⟩).run_script false allOkWorld "build").1 = 1 ∧
    countInstalls ((((Build.new none false).copy_all).set_target_directory
        ⟨false, ["p2"]⟩).run_script false allOkWorld "build").1 = 1 :=
  directory_change_resets_install ((Build.new none false).copy_all)
    ⟨false, ["p2"]⟩ false allOkWorld "build" [] [] rfl rfl (by decide)
    (by decide)

/-- C5: staging is a destructive per-item sync. For an explicit list of
item names: any target file under `target/item` whose corresponding source
file `project/item/...` is absent from the source no longer exists after
staging, and target files lying under no listed item are left untouched. -/
theorem stale_files_removed (entries items : List String)
    (fromDir toDir : Path) (srcFs tgtFs : List Path) (ops : List FsOp)
    (hops : copy_to_target
      (CopyItems.Some (items.map (fun n => ⟨false, [n]⟩))) entries fromDir
      toDir = Except.ok ops) :
    (∀ n ∈ items, ∀ rest : List String,
        Path.mk fromDir.absolute (fromDir.components ++ n :: rest) ∉ srcFs →
        Path.mk toDir.absolute (toDir.components ++ n :: rest) ∉
          runOps srcFs tgtFs ops) ∧
    (∀ f ∈ tgtFs,
        (∀ n ∈ items, f.isUnder (toDir.join ⟨false, [n]⟩) = false) →
        f ∈ runOps srcFs tgtFs ops) := by
  have habs : (items.map (fun n => (⟨false, [n]⟩ : Path))).any
      (fun p => p.absolute) = false := by
    simp [List.any_map, Function.comp]
  have hops2 : ops = stagingOps (items.map (fun n => ⟨false, [n]⟩))
      fromDir toDir := by
    have h := hops.symm
    simp only [copy_to_target, resolveItems, habs, Bool.false_eq_true,
      if_false, Except.ok.injEq] at h
    exact h
  subst hops2
  constructor
  · intro n hn rest hsrc hmem
    rw [mem_runOps_stagingOps] at hmem
    rcases hmem with ⟨hf, hall⟩ | ⟨p, hp, g, hg, hgu, hr⟩
    · have hmem2 : (⟨false, [n]⟩ : Path) ∈
          items.map (fun n => (⟨false, [n]⟩ : Path)) :=
        List.mem_map.mpr ⟨n, hn, rfl⟩
      have hfalse := hall ⟨false, [n]⟩ hmem2
      have hu : (Path.mk toDir.absolute
          (toDir.components ++ n :: rest)).isUnder
            (toDir.join ⟨false, [n]⟩) = true := by
        rw [join_relative, isUnder_iff]
        refine ⟨rfl, ?_⟩
        rw [List.prefix_append_right_inj]
        exact ⟨rest, rfl⟩
      rw [hu] at hfalse
      exact absurd hfalse (by decide)
    · obtain ⟨m, hm, rfl⟩ := List.mem_map.mp hp
      rw [join_relative] at hgu hr
      rw [isUnder_iff] at hgu
      obtain ⟨hga, hgp⟩ := hgu
      obtain ⟨r, hrcomp⟩ := hgp
      simp only [rebase] at hr
      have hcomp := congrArg Path.components hr
      simp only at hcomp
      rw [List.getLastD_concat] at hcomp
      have hdrop : g.components.drop
          ((⟨fromDir.absolute, fromDir.components ++ [m]⟩ :
            Path).components).length = r := by
        simp only
        rw [← hrcomp, List.drop_left]
      rw [hdrop] at hcomp
      have hcons := List.append_cancel_left hcomp
      injection hcons with h1 h2
      subst h1
      subst h2
      apply hsrc
      have hgeq : g = ⟨fromDir.absolute,
          fromDir.components ++ n :: rest⟩ := by
        obtain ⟨ga, gc⟩ := g
        simp only at hga hrcomp
        subst hga
        have hgc : gc = fromDir.components ++ n :: rest := by
          rw [← hrcomp, List.append_assoc, List.singleton_append]
        rw [hgc]
      rw [← hgeq]
      exact hg
  · intro f hf hall
    rw [mem_runOps_stagingOps]
    refine Or.inl ⟨hf, ?_⟩
    intro p hp
    obtain ⟨m, hm, rfl⟩ := List.mem_map.mp hp
    exact hall m hm

/-- Witness for C5: the target holds `item/old.txt` and `keep.txt`, the
source's `item` holds only `new.txt`; after staging the single item `item`,
the stale `item/old.txt` is gone while the unlisted `keep.txt` survives. -/
theorem stale_files_removed_witness :
    (⟨false, ["tgt", "item", "old.txt"]⟩ : Path) ∉
      runOps [⟨false, ["proj", "item", "new.txt"]⟩]
        [⟨false, ["tgt", "item", "old.txt"]⟩, ⟨false, ["tgt", "keep.txt"]⟩]
        (stagingOps [⟨false, ["item"]⟩] ⟨false, ["proj"]⟩
          ⟨false, ["tgt"]⟩) ∧
    (⟨false, ["tgt", "keep.txt"]⟩ : Path) ∈
      runOps [⟨false, ["proj", "item", "new.txt"]⟩]
        [⟨false, ["tgt", "item", "old.txt"]⟩, ⟨false, ["tgt", "keep.txt"]⟩]
        (stagingOps [⟨false, ["item"]⟩] ⟨false, ["proj"]⟩
          ⟨false, ["tgt"]⟩) := by
  constructor
  · exact (stale_files_removed [] ["item"] ⟨false, ["proj"]⟩
      ⟨false, ["tgt"]⟩ _ _ _ rfl).1 "item" (by decide) ["old.txt"]
      (by decide)
  · exact (stale_files_removed [] ["item"] ⟨false, ["proj"]⟩
      ⟨false, ["tgt"]⟩ _ _ _ rfl).2 ⟨false, ["tgt", "keep.txt"]⟩
      (by decide) (by decide)

/-- C4: under the copy-all policy the resolved item list is exactly the
immediate children of the project directory minus the entry named
`node_modules`, and the staged operations neither create nor remove
anything under `target/node_modules`. -/
theorem copy_all_excludes_node_modules (entries : List String)
    (fromDir toDir : Path) (srcFs tgtFs : List Path) (ops : List FsOp)
    (f : Path)
    (hops : copy_to_target CopyItems.All entries fromDir toDir =
      Except.ok ops) :
    ops = stagingOps ((entries.filter (fun n => n ≠ "node_modules")).map
      (fun n => ⟨false, [n]⟩)) fromDir toDir ∧
    (f.isUnder (toDir.join ⟨false, ["node_modules"]⟩) = true →
      (f ∈ runOps srcFs tgtFs ops ↔ f ∈ tgtFs)) := by
  have habs : ((entries.filter (fun n => n ≠ "node_modules")).map
      (fun n => (⟨false, [n]⟩ : Path))).any (fun p => p.absolute) =
      false := by
    rw [List.any_eq_false]
    rintro p hp
    rw [List.mem_map] at hp
    obtain ⟨m, hm, rfl⟩ := hp
    simp
  have hops2 : ops = stagingOps ((entries.filter
      (fun n => n ≠ "node_modules")).map (fun n => ⟨false, [n]⟩))
      fromDir toDir := by
    have h := hops.symm
    simp only [copy_to_target, resolveItems, get_folder_contents, habs,
      Bool.false_eq_true, if_false, Except.ok.injEq] at h
    exact h
  subst hops2
  refine ⟨rfl, ?_⟩
  intro hunder
  rw [join_relative, isUnder_iff] at hunder
  obtain ⟨hab, hpre⟩ := hunder
  rw [mem_runOps_stagingOps]
  constructor
  · rintro (⟨hf, hall⟩ | ⟨p, hp, g, hg, hgu, hr⟩)
    · exact hf
    · exfalso
      obtain ⟨m, hm, rfl⟩ := List.mem_map.mp hp
      have hmne : m ≠ "node_modules" := by
        have h2 := (List.mem_filter.mp hm).2
        simpa using h2
      rw [join_relative] at hgu hr
      simp only [rebase] at hr
      have hcomp := congrArg Path.components hr
      simp only at hcomp
      rw [List.getLastD_concat] at hcomp
      rw [hcomp] at hpre
      rw [List.prefix_append_right_inj] at hpre
      obtain ⟨heq, hrest⟩ := List.cons_prefix_cons.mp hpre
      exact hmne heq.symm
  · intro hf
    refine Or.inl ⟨hf, ?_⟩
    intro p hp
    obtain ⟨m, hm, rfl⟩ := List.mem_map.mp hp
    have hmne : m ≠ "node_modules" := by
      have h2 := (List.mem_filter.mp hm).2
      simpa using h2
    by_contra hcontra
    rw [Bool.not_eq_false] at hcontra
    rw [join_relative, isUnder_iff] at hcontra
    obtain ⟨hab2, hpre2⟩ := hcontra
    have hor := List.prefix_or_prefix_of_prefix hpre hpre2
    have hlen : (toDir.components ++ ["node_modules"]).length =
        (toDir.components ++ [m]).length := by simp
    have heq : toDir.components ++ ["node_modules"] =
        toDir.components ++ [m] := by
      rcases hor with h | h
      · exact h.eq_of_length hlen
      · exact (h.eq_of_length hlen.symm).symm
    have hsing := List.append_cancel_left heq
    injection hsing with h1 h2
    exact hmne h1.symm

/-- Witness for C4: a project listing `a.txt`, `src`, `node_modules`; the
resolved operations stage exactly `a.txt` and `src`, and a pre-existing
`node_modules/mod.js` at the target is neither removed nor recreated. -/
theorem copy_all_excludes_node_modules_witness :
    stagingOps [⟨false, ["a.txt"]⟩, ⟨false, ["src"]⟩] ⟨false, ["p"]⟩
        ⟨false, ["t"]⟩ =
      stagingOps (((["a.txt", "src", "node_modules"].filter
        (fun n => n ≠ "node_modules"))).map (fun n => ⟨false, [n]⟩))
        ⟨false, ["p"]⟩ ⟨false, ["t"]⟩ ∧
    ((⟨false, ["t", "node_modules", "mod.js"]⟩ : Path) ∈
        runOps [⟨false, ["p", "a.txt"]⟩]
          [⟨false, ["t", "node_modules", "mod.js"]⟩]
          (stagingOps [⟨false, ["a.txt"]⟩, ⟨false, ["src"]⟩]
            ⟨false, ["p"]⟩ ⟨false, ["t"]⟩) ↔
      (⟨false, ["t", "node_modules", "mod.js"]⟩ : Path) ∈
        ([⟨false, ["t", "node_modules", "mod.js"]⟩] : List Path)) := by
  constructor
  · exact (copy_all_excludes_node_modules ["a.txt", "src", "node_modules"]
      ⟨false, ["p"]⟩ ⟨false, ["t"]⟩ [] [] _ ⟨false, []⟩ rfl).1
  · exact (copy_all_excludes_node_modules ["a.txt", "src", "node_modules"]
      ⟨false, ["p"]⟩ ⟨false, ["t"]⟩ [⟨false, ["p", "a.txt"]⟩]
      [⟨false, ["t", "node_modules", "mod.js"]⟩] _
      ⟨false, ["t", "node_modules", "mod.js"]⟩ rfl).2 (by decide)

end NpmRs

